import Mathlib

/-
Verification development for the agent task scheduling and orchestration core
of the AI-studio repository.

Two overlapping designs exist in the source:
  * `src/Agents/base_agent.py` (full design: capacity bookkeeping, timeouts,
    retries, health loop) — embedded in namespace `BA` below;
  * `src/Backend/app/services/agents.py` (service design: single-slot agents
    plus the `AgentOrchestrator`) — embedded in namespace `Svc` below.

Modelling conventions:
  * opaque result payloads (`Dict[str, Any]`) are abstracted to `Nat`;
  * wall-clock timestamps (`datetime.now()`) are drawn from a logical clock
    threaded through the state (each stamping event advances it by one);
  * the capability executor `execute_task` (abstract in the source) is an
    oracle `Nat → ExecOutcome` giving the outcome of each attempt in turn;
  * real-time execution-duration metrics and the psutil resource sampler are
    not consulted by any claim and are left out of the agent state;
  * Python floats used in `get_capability_score` are modelled exactly as
    rationals, and `int()` as truncation toward zero.
-/

namespace BA

/-- Agent status enumeration from `base_agent.py` (`AgentStatus`). -/
inductive AgentStatus
  | idle
  | busy
  | error
  | initStatus
  | offline
  | maintenance
deriving DecidableEq, Repr

/-- Capability descriptor from `base_agent.py` (`AgentCapability`): fields
consulted by admission and scoring (name, complexity score, GPU flag).
The purely descriptive fields (description, input/output types, estimated
time, memory, cpu flag) are never read by the functions under claim. -/
structure AgentCapability where
  name : String
  complexityScore : Nat
  requiresGpu : Bool
deriving DecidableEq, Repr

/-- Task record from `base_agent.py` (`AgentTask`): the lifecycle fields.
`input_data`, `metadata`, `priority` and `callback` are carried by the source
object but never influence the control flow under claim. -/
structure AgentTask where
  id : String
  type : String
  timeout : Nat
  retryCount : Nat
  maxRetries : Nat
  result : Option Nat
  error : Option String
  startedAt : Option Nat
  completedAt : Option Nat
deriving DecidableEq, Repr

/-- Mutable agent state from `base_agent.py` (`BaseAgent.__init__`).
`currentTaskIds` is the key set of the `current_tasks` dict (the task being
processed is threaded explicitly through `processTask`); `hasGpu` stands for
the runtime environment probe `_has_gpu()` (torch.cuda availability);
`initDone` is `_initialized`; `clock` is the logical timestamp source. -/
structure AgentState where
  currentTaskIds : List String
  maxConcurrentTasks : Nat
  status : AgentStatus
  initDone : Bool
  hasGpu : Bool
  capabilities : List AgentCapability
  history : List AgentTask
  tasksCompleted : Nat
  tasksFailed : Nat
  clock : Nat
deriving DecidableEq, Repr

/-- The `_capability_map` dict comprehension of `base_agent.py` line 146:
`{cap.name: cap for cap in capabilities}`. On duplicate names the later
capability overwrites the earlier, hence the left fold keeping the last
match. -/
def capLookup (caps : List AgentCapability) (ty : String) : Option AgentCapability :=
  caps.foldl (fun acc c => if c.name = ty then some c else acc) none

/-- Dict-key insertion semantics of `self.current_tasks[task.id] = task`:
an existing key is overwritten (key set unchanged), a new key is appended. -/
def dictInsertKey (k : String) (l : List String) : List String :=
  if l.contains k then l else l ++ [k]

/-- `BaseAgent.can_handle_task` from `base_agent.py` lines 218-236, checking
in order: initialized-and-idle, declared capability, capacity, GPU
precondition. -/
def canHandleTask (s : AgentState) (t : AgentTask) : Bool :=
  if s.initDone = false ∨ s.status ≠ AgentStatus.idle then false
  else
    match capLookup s.capabilities t.type with
    | none => false
    | some capability =>
      if s.maxConcurrentTasks ≤ s.currentTaskIds.length then false
      else if capability.requiresGpu = true ∧ s.hasGpu = false then false
      else true

/-- Python `int()` on a real value: truncation toward zero. -/
def truncQ (x : ℚ) : ℤ :=
  if 0 ≤ x then Int.floor x else Int.ceil x

/-- `BaseAgent.get_capability_score` from `base_agent.py` lines 238-246:
`complexity_score * (1 - load_factor * 0.3)` truncated to int, with
`load_factor = len(current_tasks) / max(max_concurrent_tasks, 1)`; an
undeclared task type scores 0. -/
def getCapabilityScore (s : AgentState) (taskType : String) : ℤ :=
  match capLookup s.capabilities taskType with
  | some capability =>
    let loadFactor : ℚ := (s.currentTaskIds.length : ℚ) / ((max s.maxConcurrentTasks 1 : Nat) : ℚ)
    truncQ ((capability.complexityScore : ℚ) * (1 - loadFactor * (3 / 10)))
  | none => 0

/-- Outcome of one invocation of the abstract capability executor
`execute_task` as observed through `asyncio.wait_for(…, timeout=task.timeout)`:
it returns a payload, exceeds the timeout, or raises some other exception. -/
inductive ExecOutcome
  | success (v : Nat)
  | timedOut
  | raised (msg : String)
deriving DecidableEq, Repr

/-- The failure `process_task` propagates to its caller: the `TimeoutError`
of the timeout branch, the re-raised executor exception of the exhausted
retry branch, or the `ValueError` raised by the capacity check at admission. -/
inductive TaskFailure
  | timeoutFail (msg : String)
  | execFail (msg : String)
  | capacityFail
deriving DecidableEq, Repr

/-- Result of `process_task`: the returned payload or the raised failure. -/
inductive ProcResult
  | ok (v : Nat)
  | err (e : TaskFailure)
deriving DecidableEq, Repr

/-- Observable effect of one `process_task` call: its result, the task object
as finally mutated, the final agent state, the number of times the executor
was invoked in the whole call tree, and the backoff sleeps performed. -/
structure ProcOut where
  res : ProcResult
  task : AgentTask
  state : AgentState
  attempts : Nat
  waits : List Nat
deriving DecidableEq, Repr

/-- The error string of the timeout branch:
`f"Task {task.id} timed out after {task.timeout}s"`. -/
def timeoutMsg (t : AgentTask) : String :=
  "Task " ++ t.id ++ " timed out after " ++ toString t.timeout ++ "s"

/-- The error string of the generic failure branch:
`f"Task {task.id} failed: {str(e)}"`. -/
def execMsg (t : AgentTask) (m : String) : String :=
  "Task " ++ t.id ++ " failed: " ++ m

/-- `BaseAgent._add_to_history` from `base_agent.py` lines 450-456: append,
then keep only the most recent 1000 entries. -/
def addToHistory (t : AgentTask) (h : List AgentTask) : List AgentTask :=
  let h2 := h ++ [t]
  if 1000 < h2.length then h2.drop (h2.length - 1000) else h2

/-- The `finally` block of `process_task` (lines 325-334): pop the task id
from `current_tasks` under the lock, append the (shared, fully mutated) task
object to the history, and drop back to Idle when no task remains. -/
def finishUp (r : ProcResult) (t : AgentTask) (s : AgentState)
    (attempts : Nat) (waits : List Nat) : ProcOut :=
  let s1 : AgentState := { s with currentTaskIds := s.currentTaskIds.erase t.id }
  let s2 : AgentState := { s1 with history := addToHistory t s1.history }
  let s3 : AgentState :=
    if s2.currentTaskIds.isEmpty then { s2 with status := AgentStatus.idle } else s2
  { res := r, task := t, state := s3, attempts := attempts, waits := waits }

/-- `BaseAgent.process_task` from `base_agent.py` lines 263-334, embedded as a
pure state transformer. `exec` is the executor oracle, `attemptIdx` the number
of executor invocations already performed for this task.

Control flow mirrors the source exactly:
 1. under the task lock, raise `ValueError` if `current_tasks` is at
    capacity (this raise precedes the `try`, so no cleanup runs), otherwise
    register the task id;
 2. stamp `started_at`, set status Busy;
 3. run the executor under the timeout;
 4. on success set `result`, stamp `completed_at`, bump success metrics;
    on timeout set `error`, stamp `completed_at`, bump failure metrics and
    raise `TimeoutError` (no retry); on any other exception set `error`,
    stamp `completed_at`, bump failure metrics and, if
    `retry_count < max_retries`, increment `retry_count`, sleep
    `2 ** retry_count` and recurse — the recursion re-enters the admission
    check while the task still occupies its own slot;
 5. the `finally` cleanup (`finishUp`) runs at every recursion level on the
    way out, on the shared task object.
The success-callback invocation (failures swallowed) has no observable
effect on the state modelled here and is omitted. -/
def processTask (exec : Nat → ExecOutcome) (attemptIdx : Nat)
    (s : AgentState) (t : AgentTask) : ProcOut :=
  if s.maxConcurrentTasks ≤ s.currentTaskIds.length then
    { res := ProcResult.err TaskFailure.capacityFail, task := t, state := s,
      attempts := 0, waits := [] }
  else
    let s1 : AgentState := { s with currentTaskIds := dictInsertKey t.id s.currentTaskIds }
    let t1 : AgentTask := { t with startedAt := some s1.clock }
    let s2 : AgentState := { s1 with status := AgentStatus.busy, clock := s1.clock + 1 }
    match exec attemptIdx with
    | ExecOutcome.success v =>
      let t2 : AgentTask := { t1 with result := some v, completedAt := some s2.clock }
      let s3 : AgentState :=
        { s2 with clock := s2.clock + 1, tasksCompleted := s2.tasksCompleted + 1 }
      finishUp (ProcResult.ok v) t2 s3 1 []
    | ExecOutcome.timedOut =>
      let t2 : AgentTask := { t1 with error := some (timeoutMsg t1), completedAt := some s2.clock }
      let s3 : AgentState :=
        { s2 with clock := s2.clock + 1, tasksFailed := s2.tasksFailed + 1 }
      finishUp (ProcResult.err (TaskFailure.timeoutFail (timeoutMsg t1))) t2 s3 1 []
    | ExecOutcome.raised m =>
      let t2 : AgentTask := { t1 with error := some (execMsg t1 m), completedAt := some s2.clock }
      let s3 : AgentState :=
        { s2 with clock := s2.clock + 1, tasksFailed := s2.tasksFailed + 1 }
      if hr : t.retryCount < t.maxRetries then
        let t3 : AgentTask := { t2 with retryCount := t.retryCount + 1 }
        let inner := processTask exec (attemptIdx + 1) s3 t3
        finishUp inner.res inner.task inner.state (1 + inner.attempts)
          (2 ^ (t.retryCount + 1) :: inner.waits)
      else
        finishUp (ProcResult.err (TaskFailure.execFail (execMsg t1 m))) t2 s3 1 []
termination_by t.maxRetries + 1 - t.retryCount
decreasing_by
  simp
  omega

/-- The mutations of `current_tasks` in `base_agent.py`, each performed under
the single `_task_lock` and hence atomic with respect to one another:
admission (the lock-guarded block of `process_task` lines 265-269, which
inserts only after the capacity check passes), terminal removal (the
lock-guarded pop of the `finally` block, lines 327-328), and stuck-task
eviction (`_cleanup_stuck_task` lines 458-463). Two near-simultaneous
submissions serialize into two consecutive `admit` steps. -/
inductive CurrentTasksStep (maxC : Nat) : List String → List String → Prop
  | admitTask (k : String) (cur : List String) (h : cur.length < maxC) :
      CurrentTasksStep maxC cur (dictInsertKey k cur)
  | finishTask (k : String) (cur : List String) :
      CurrentTasksStep maxC cur (cur.erase k)
  | evictStuck (k : String) (cur : List String) :
      CurrentTasksStep maxC cur (cur.erase k)

end BA

namespace Svc

/-- Agent status enumeration from `Backend/app/services/agents.py`. -/
inductive SvcStatus
  | idle
  | busy
  | error
  | initStatus
deriving DecidableEq, Repr

/-- Capability descriptor from `Backend/app/services/agents.py`
(`AgentCapability`): name and complexity score (description and the
input/output type lists are never consulted by scheduling code). -/
structure SvcCapability where
  name : String
  complexityScore : Nat
deriving DecidableEq, Repr

/-- Task record from `Backend/app/services/agents.py` (`AgentTask`): the
fields consulted by routing (`input_data`, `metadata`, `priority` and the
lifecycle stamps play no role in the claims about this design). -/
structure SvcTask where
  id : String
  type : String
deriving DecidableEq, Repr

/-- One registered agent of the service design, as read by the orchestrator:
identity, status, declared capabilities, and the
`metrics["average_execution_time"]` value used for routing (a Python float,
modelled exactly as a rational). -/
structure SvcAgent where
  agentId : String
  status : SvcStatus
  capabilities : List SvcCapability
  avgExecTime : ℚ
deriving DecidableEq, Repr

/-- `BaseAgent.can_handle_task` from `Backend/app/services/agents.py` lines
88-93: scan the capability list and return true on the first name match. -/
def svcCanHandleTask (a : SvcAgent) (t : SvcTask) : Bool :=
  a.capabilities.any (fun capability => capability.name = t.type)

/-- The fold performed by Python `min(suitable_agents, key=…)`: scan left to
right, replacing the current best only on a strictly smaller key, so the
first agent with the minimal average execution time wins. -/
def pickBest (best : SvcAgent) : List SvcAgent → SvcAgent
  | [] => best
  | a :: rest => pickBest (if a.avgExecTime < best.avgExecTime then a else best) rest

/-- `AgentOrchestrator._find_suitable_agent` from
`Backend/app/services/agents.py` lines 710-724: filter the registry (in
insertion order) to agents that are Idle and can handle the task, return
None if none qualify, else the eligible agent with the minimal
`average_execution_time`. -/
def findSuitableAgent (agents : List SvcAgent) (t : SvcTask) : Option SvcAgent :=
  match agents.filter (fun a => a.status = SvcStatus.idle ∧ svcCanHandleTask a t) with
  | [] => none
  | b :: rest => some (pickBest b rest)

/-- The id string built by `AgentOrchestrator.submit_task` line 732:
`f"task_{int(time.time() * 1000)}_{hash(str(input_data)) % 10000}"`.
`nowMs` is the millisecond timestamp, `inputHash` the Python hash of the
stringified input payload (Python `%` on a positive modulus yields a
non-negative remainder, as does `Int.emod`). -/
def submitTaskId (nowMs : Nat) (inputHash : Int) : String :=
  "task_" ++ toString nowMs ++ "_" ++ toString (inputHash % 10000)

/-- The orchestrator's `task_results` dict, keyed by task id; result payloads
are abstracted to `Nat`. -/
def ResultsMap : Type := String → Option Nat

/-- Dict insertion `task_results[k] = v`. -/
def resultsInsert (k : String) (v : Nat) (m : ResultsMap) : ResultsMap :=
  fun x => if x = k then some v else m x

/-- Dict deletion `del task_results[k]`. -/
def resultsErase (k : String) (m : ResultsMap) : ResultsMap :=
  fun x => if x = k then none else m x

/-- Insertions performed by concurrently running dispatcher loops during one
sleep interval of the polling loop. -/
def applyWrites (ws : List (String × Nat)) (m : ResultsMap) : ResultsMap :=
  ws.foldl (fun acc kv => resultsInsert kv.fst kv.snd acc) m

/-- Outcome of `get_task_result`: the delivered payload together with the
`task_results` map left behind, or the raised `TimeoutError`. -/
inductive PollOutcome
  | delivered (v : Nat) (rest : ResultsMap)
  | timedOutPoll

/-- `AgentOrchestrator.get_task_result` from `Backend/app/services/agents.py`
lines 748-763: poll `task_results` until the id appears or the deadline
passes. `fuel` is the number of membership checks the `timeout` budget
allows (one per 0.1-second sleep), `tick` the index of the current check,
and `writes` gives the entries other dispatcher loops insert before each
check. On a hit the entry is read, deleted, and returned; exhausted fuel is
the raised `TimeoutError`. -/
def getTaskResult (taskId : String) :
    Nat → Nat → ResultsMap → (Nat → List (String × Nat)) → PollOutcome
  | 0, _, _, _ => PollOutcome.timedOutPoll
  | fuel + 1, tick, m, writes =>
    match applyWrites (writes tick) m taskId with
    | some v => PollOutcome.delivered v (resultsErase taskId (applyWrites (writes tick) m))
    | none => getTaskResult taskId fuel (tick + 1) (applyWrites (writes tick) m) writes

/-- A schedule with no concurrent dispatcher insertions. -/
def noWrites : Nat → List (String × Nat) := fun _ => []

end Svc

/-
Concrete fixtures used by witnesses and counterexamples. They mirror the
agents the repository actually constructs (the code agent declares
`code_generation` with complexity 7; `max_concurrent_tasks` defaults to 1).
-/

def fxCap : BA.AgentCapability :=
  { name := "code_generation", complexityScore := 7, requiresGpu := false }

def fxAgent : BA.AgentState :=
  { currentTaskIds := [], maxConcurrentTasks := 1, status := BA.AgentStatus.idle,
    initDone := true, hasGpu := false, capabilities := [fxCap],
    history := [], tasksCompleted := 0, tasksFailed := 0, clock := 0 }

def fxAgent2 : BA.AgentState := { fxAgent with maxConcurrentTasks := 2 }

def fxTask : BA.AgentTask :=
  { id := "t1", type := "code_generation", timeout := 300, retryCount := 0,
    maxRetries := 3, result := none, error := none, startedAt := none,
    completedAt := none }

def fxTaskR1 : BA.AgentTask := { fxTask with maxRetries := 1 }

/-- An executor that raises a (non-timeout) exception on every attempt. -/
def fxAlwaysFail : Nat → BA.ExecOutcome := fun _ => BA.ExecOutcome.raised ("boom")

/-- An executor that raises on the first attempt and succeeds on retry. -/
def fxFailThenOk : Nat → BA.ExecOutcome
  | 0 => BA.ExecOutcome.raised ("e1")
  | _ + 1 => BA.ExecOutcome.success 42

def fxCapX : BA.AgentCapability :=
  { name := "x", complexityScore := 10, requiresGpu := false }

def fxFree : BA.AgentState :=
  { fxAgent2 with capabilities := [fxCapX] }

def fxHalf : BA.AgentState := { fxFree with currentTaskIds := ["a"] }

def fxFull : BA.AgentState := { fxFree with currentTaskIds := ["a", "b"] }

/-
General-purpose helper lemmas (not tied to a single claim).
-/

/-- Truncation toward zero is monotone. -/
theorem truncQ_mono {x y : ℚ} (h : x ≤ y) : BA.truncQ x ≤ BA.truncQ y := by
  unfold BA.truncQ
  by_cases hx : 0 ≤ x
  · rw [if_pos hx, if_pos (le_trans hx h)]
    exact Int.floor_mono h
  · by_cases hy : 0 ≤ y
    · rw [if_neg hx, if_pos hy]
      have h1 : Int.ceil x ≤ 0 := by
        apply Int.ceil_le.mpr
        push_cast
        exact le_of_lt (lt_of_not_ge hx)
      have h2 : (0 : ℤ) ≤ Int.floor y := Int.floor_nonneg.mpr hy
      omega
    · rw [if_neg hx, if_neg hy]
      exact Int.ceil_mono h

/-- Erasing a key never lengthens a list. -/
theorem length_erase_le (l : List String) (k : String) :
    (l.erase k).length ≤ l.length :=
  List.Sublist.length_le (List.erase_sublist k l)

/-
C10
-/

/-- C10: for every agent state and every task type that is not among the
declared capabilities, `get_capability_score` returns 0 rather than failing,
strictly below the declared minimum complexity score of 1. -/
theorem c10_undeclared_type_scores_zero (s : BA.AgentState) (ty : String)
    (h : BA.capLookup s.capabilities ty = none) :
    BA.getCapabilityScore s ty = 0 ∧ BA.getCapabilityScore s ty < 1 := by
  unfold BA.getCapabilityScore
  rw [h]
  exact ⟨rfl, by norm_num⟩

/-- C10 witness: the concrete code agent scores 0 on an undeclared type. -/
theorem c10_witness :
    BA.getCapabilityScore fxAgent "unknown_type" = 0 ∧
    BA.getCapabilityScore fxAgent "unknown_type" < 1 :=
  c10_undeclared_type_scores_zero fxAgent "unknown_type" rfl

/-
C8
-/

/-- C8 counterexample: on an agent declaring capability `x` with complexity
10 and concurrency limit 2, the empty agent scores 10, the half-loaded agent
8 and the fully loaded agent 7. More available capacity therefore yields the
strictly HIGHER score, refuting the claim that a lower discounted score
corresponds to more available capacity; the full-load score 7 also shows the
discount is 0.3 times the load fraction, not the load fraction itself. -/
theorem c8_counterexample :
    BA.getCapabilityScore fxFree "x" = 10 ∧
    BA.getCapabilityScore fxHalf "x" = 8 ∧
    BA.getCapabilityScore fxFull "x" = 7 ∧
    ¬(BA.getCapabilityScore fxFree "x" ≤ BA.getCapabilityScore fxHalf "x") := by
  have h0 : BA.getCapabilityScore fxFree "x" = 10 := by
    unfold BA.getCapabilityScore
    simp only [fxFree, fxAgent2, fxAgent, fxCapX, BA.capLookup, List.foldl]
    norm_num [BA.truncQ]
  have h1 : BA.getCapabilityScore fxHalf "x" = 8 := by
    unfold BA.getCapabilityScore
    simp only [fxHalf, fxFree, fxAgent2, fxAgent, fxCapX, BA.capLookup, List.foldl]
    norm_num [BA.truncQ]
  have h2 : BA.getCapabilityScore fxFull "x" = 7 := by
    unfold BA.getCapabilityScore
    simp only [fxFull, fxFree, fxAgent2, fxAgent, fxCapX, BA.capLookup, List.foldl]
    norm_num [BA.truncQ]
  refine ⟨h0, h1, h2, ?_⟩
  rw [h0, h1]
  omega

/-- C8 amended: `get_capability_score(type)` returns the capability's
complexity score multiplied by `1 - 0.3 * load_fraction` and truncated to
int, where `load_fraction = len(current_tasks) / max(limit, 1)`; the score is
antitone in the current load, so a HIGHER discounted score corresponds to
more available capacity. -/
theorem c8_amended (s1 s2 : BA.AgentState) (c : BA.AgentCapability) (ty : String)
    (hcaps : s2.capabilities = s1.capabilities)
    (hmax : s2.maxConcurrentTasks = s1.maxConcurrentTasks)
    (hc : BA.capLookup s1.capabilities ty = some c)
    (hlen : s1.currentTaskIds.length ≤ s2.currentTaskIds.length) :
    BA.getCapabilityScore s2 ty ≤ BA.getCapabilityScore s1 ty := by
  unfold BA.getCapabilityScore
  rw [hcaps, hmax, hc]
  apply truncQ_mono
  have hM : (0 : ℚ) < ((max s1.maxConcurrentTasks 1 : Nat) : ℚ) := by
    have : (1 : Nat) ≤ max s1.maxConcurrentTasks 1 := le_max_right _ _
    exact_mod_cast Nat.lt_of_lt_of_le Nat.zero_lt_one this
  have hload : (s1.currentTaskIds.length : ℚ) / ((max s1.maxConcurrentTasks 1 : Nat) : ℚ) ≤
      (s2.currentTaskIds.length : ℚ) / ((max s1.maxConcurrentTasks 1 : Nat) : ℚ) := by
    apply (div_le_div_iff_of_pos_right hM).mpr
    exact_mod_cast hlen
  have hfac : (1 : ℚ) - (s2.currentTaskIds.length : ℚ) / ((max s1.maxConcurrentTasks 1 : Nat) : ℚ) * (3 / 10) ≤
      1 - (s1.currentTaskIds.length : ℚ) / ((max s1.maxConcurrentTasks 1 : Nat) : ℚ) * (3 / 10) := by
    have := mul_le_mul_of_nonneg_right hload (by norm_num : (0 : ℚ) ≤ 3 / 10)
    linarith
  have hcn : (0 : ℚ) ≤ (c.complexityScore : ℚ) := by positivity
  exact mul_le_mul_of_nonneg_left hfac hcn

/-- C8 amended witness: instantiated at the fixture agents, the half-loaded
agent scores no more than the empty one. -/
theorem c8_amended_witness :
    BA.getCapabilityScore fxHalf "x" ≤ BA.getCapabilityScore fxFree "x" :=
  c8_amended fxFree fxHalf fxCapX "x" rfl rfl rfl (by decide)

/-
C4
-/

/-- C4: each mutation of `current_tasks` — admission guarded by the capacity
check under the task lock, terminal removal in the `finally` block, and
stuck-task eviction by the health loop — preserves the capacity invariant
`len(current_tasks) <= max_concurrent_tasks`; since the steps serialize under
the single lock, the bound holds at every observable instant, including under
two near-simultaneous submissions. -/
theorem c4_capacity_invariant (maxC : Nat) (cur next : List String)
    (hinv : cur.length ≤ maxC) (hstep : BA.CurrentTasksStep maxC cur next) :
    next.length ≤ maxC := by
  cases hstep with
  | admitTask k cur h =>
    unfold BA.dictInsertKey
    by_cases hk : cur.contains k
    · rw [if_pos hk]; exact hinv
    · rw [if_neg hk]; simp; omega
  | finishTask k cur => exact le_trans (length_erase_le cur k) hinv
  | evictStuck k cur => exact le_trans (length_erase_le cur k) hinv

/-- C4 witness: admitting a task into an empty agent with concurrency limit 1
keeps the bound. -/
theorem c4_witness : (BA.dictInsertKey "t1" []).length ≤ 1 :=
  c4_capacity_invariant 1 [] (BA.dictInsertKey "t1" []) (by decide)
    (BA.CurrentTasksStep.admitTask "t1" [] (by decide))

/-
C5
-/

/-- C5 counterexample: in the Backend services design
(`Backend/app/services/agents.py` lines 88-93), `can_handle_task` returns
true for a BUSY agent whose capability list matches the task type — the
claimed "returns true only if the agent is Idle" direction is false there
(that design leaves the Idle check to the orchestrator filter and to
`process_task`). -/
theorem c5_counterexample :
    Svc.svcCanHandleTask
        { agentId := "code_agent", status := Svc.SvcStatus.busy,
          capabilities := [{ name := "code_generation", complexityScore := 7 }],
          avgExecTime := 0 }
        { id := "task_1", type := "code_generation" } = true ∧
    Svc.SvcStatus.busy ≠ Svc.SvcStatus.idle := by
  exact ⟨by decide, by decide⟩

/-- C5 amended: in the full design (`base_agent.py` lines 218-236)
`can_handle_task(task)` returns true iff the agent is accepting (initialized
and Idle), `task.type` matches a declared capability, the agent is below its
concurrency limit, and a GPU-requiring capability finds a GPU in the runtime
environment; the Backend services variant instead checks only the capability
name match. -/
theorem c5_can_handle_task_iff (s : BA.AgentState) (t : BA.AgentTask) :
    BA.canHandleTask s t = true ↔
      (s.initDone = true ∧ s.status = BA.AgentStatus.idle) ∧
      (∃ c, BA.capLookup s.capabilities t.type = some c ∧
        (c.requiresGpu = true → s.hasGpu = true)) ∧
      s.currentTaskIds.length < s.maxConcurrentTasks := by
  unfold BA.canHandleTask
  by_cases h1 : s.initDone = false ∨ s.status ≠ BA.AgentStatus.idle
  · rw [if_pos h1]
    simp only [Bool.false_eq_true, false_iff]
    rintro ⟨⟨hi, hs⟩, -, -⟩
    rcases h1 with h1 | h1
    · rw [hi] at h1
      exact Bool.false_ne_true h1.symm
    · exact h1 hs
  · rw [if_neg h1]
    push_neg at h1
    have h1a : s.initDone = true := by
      cases hv : s.initDone
      · exact absurd hv h1.1
      · rfl
    rcases hcap : BA.capLookup s.capabilities t.type with _ | c
    · simp only [Bool.false_eq_true, false_iff]
      rintro ⟨-, ⟨c2, hc2, -⟩, -⟩
      exact Option.noConfusion hc2
    · change (if s.maxConcurrentTasks ≤ s.currentTaskIds.length then false
        else if c.requiresGpu = true ∧ s.hasGpu = false then false else true) = true ↔ _
      by_cases h2 : s.maxConcurrentTasks ≤ s.currentTaskIds.length
      · rw [if_pos h2]
        simp only [Bool.false_eq_true, false_iff]
        rintro ⟨-, -, hlen⟩
        omega
      · rw [if_neg h2]
        by_cases h3 : c.requiresGpu = true ∧ s.hasGpu = false
        · rw [if_pos h3]
          simp only [Bool.false_eq_true, false_iff]
          rintro ⟨-, ⟨c2, hc2, hgpu⟩, -⟩
          injection hc2 with hc2
          subst hc2
          rw [hgpu h3.1] at h3
          exact Bool.false_ne_true h3.2.symm
        · rw [if_neg h3]
          simp only [true_iff]
          refine ⟨⟨h1a, h1.2⟩, ⟨c, rfl, ?_⟩, by omega⟩
          intro hreq
          cases hg : s.hasGpu
          · exact absurd ⟨hreq, hg⟩ h3
          · rfl

/-- C5 amended witness: the initialized idle code agent with a free slot can
handle a code-generation task. -/
theorem c5_witness : BA.canHandleTask fxAgent fxTask = true :=
  (c5_can_handle_task_iff fxAgent fxTask).mpr
    ⟨⟨rfl, rfl⟩, ⟨fxCap, rfl, by decide⟩, by decide⟩

/-
Helper lemmas about `process_task`, proved by induction on the remaining
retry budget (the recursion measure of the source's retry recursion).
-/

/-- If no attempt ever succeeds, `process_task` never writes `task.result`. -/
theorem processTask_result_preserved_fuel (exec : Nat → BA.ExecOutcome)
    (hns : ∀ n v, exec n ≠ BA.ExecOutcome.success v) :
    ∀ fuel attemptIdx s t, t.maxRetries - t.retryCount ≤ fuel →
      (BA.processTask exec attemptIdx s t).task.result = t.result := by
  intro fuel
  induction fuel with
  | zero =>
    intro attemptIdx s t hf
    rw [BA.processTask.eq_def]
    by_cases hg : s.maxConcurrentTasks ≤ s.currentTaskIds.length
    · rw [if_pos hg]
    · rw [if_neg hg]
      rcases hx : exec attemptIdx with v | _ | m
      · exact absurd hx (hns _ _)
      · simp [BA.finishUp]
      · simp only []
        rw [dif_neg (by omega)]
        simp [BA.finishUp]
  | succ fuel ih =>
    intro attemptIdx s t hf
    rw [BA.processTask.eq_def]
    by_cases hg : s.maxConcurrentTasks ≤ s.currentTaskIds.length
    · rw [if_pos hg]
    · rw [if_neg hg]
      rcases hx : exec attemptIdx with v | _ | m
      · exact absurd hx (hns _ _)
      · simp [BA.finishUp]
      · simp only []
        by_cases hr : t.retryCount < t.maxRetries
        · rw [dif_pos hr]
          simp only [BA.finishUp]
          rw [ih]
          simp
          omega
        · rw [dif_neg hr]
          simp [BA.finishUp]

/-- An error already recorded on the task object survives `process_task`
(every branch either keeps `task.error` or overwrites it with a fresh
message). -/
theorem processTask_error_mono_fuel (exec : Nat → BA.ExecOutcome) :
    ∀ fuel attemptIdx s t, t.maxRetries - t.retryCount ≤ fuel →
      t.error.isSome = true →
      ((BA.processTask exec attemptIdx s t).task.error).isSome = true := by
  intro fuel
  induction fuel with
  | zero =>
    intro attemptIdx s t hf he
    rw [BA.processTask.eq_def]
    by_cases hg : s.maxConcurrentTasks ≤ s.currentTaskIds.length
    · rw [if_pos hg]; exact he
    · rw [if_neg hg]
      rcases hx : exec attemptIdx with v | _ | m
      · simpa [BA.finishUp] using he
      · simp [BA.finishUp]
      · simp only []
        rw [dif_neg (by omega)]
        simp [BA.finishUp]
  | succ fuel ih =>
    intro attemptIdx s t hf he
    rw [BA.processTask.eq_def]
    by_cases hg : s.maxConcurrentTasks ≤ s.currentTaskIds.length
    · rw [if_pos hg]; exact he
    · rw [if_neg hg]
      rcases hx : exec attemptIdx with v | _ | m
      · simpa [BA.finishUp] using he
      · simp [BA.finishUp]
      · simp only []
        by_cases hr : t.retryCount < t.maxRetries
        · rw [dif_pos hr]
          simp only [BA.finishUp]
          rw [ih]
          · simp
            omega
          · simp
        · rw [dif_neg hr]
          simp [BA.finishUp]

/-- When `process_task` returns a payload, that payload was stored in
`task.result` by the successful terminal attempt. -/
theorem processTask_ok_result_fuel (exec : Nat → BA.ExecOutcome) :
    ∀ fuel attemptIdx s t v, t.maxRetries - t.retryCount ≤ fuel →
      (BA.processTask exec attemptIdx s t).res = BA.ProcResult.ok v →
      (BA.processTask exec attemptIdx s t).task.result = some v := by
  intro fuel
  induction fuel with
  | zero =>
    intro attemptIdx s t v hf hok
    rw [BA.processTask.eq_def] at hok ⊢
    by_cases hg : s.maxConcurrentTasks ≤ s.currentTaskIds.length
    · rw [if_pos hg] at hok
      exact absurd hok (by simp)
    · rw [if_neg hg] at hok ⊢
      rcases hx : exec attemptIdx with w | _ | m
      · simp [BA.finishUp, hx] at hok ⊢
        omega
      · simp [BA.finishUp, hx] at hok
      · simp only [hx] at hok ⊢
        rw [dif_neg (by omega)] at hok
        simp [BA.finishUp] at hok
  | succ fuel ih =>
    intro attemptIdx s t v hf hok
    rw [BA.processTask.eq_def] at hok ⊢
    by_cases hg : s.maxConcurrentTasks ≤ s.currentTaskIds.length
    · rw [if_pos hg] at hok
      exact absurd hok (by simp)
    · rw [if_neg hg] at hok ⊢
      rcases hx : exec attemptIdx with w | _ | m
      · simp [BA.finishUp, hx] at hok ⊢
        omega
      · simp [BA.finishUp, hx] at hok
      · simp only [hx] at hok ⊢
        by_cases hr : t.retryCount < t.maxRetries
        · rw [dif_pos hr] at hok ⊢
          simp only [BA.finishUp] at hok ⊢
          apply ih
          · simp
            omega
          · simpa using hok
        · rw [dif_neg hr] at hok
          simp [BA.finishUp] at hok

/-
C2
-/

/-- C2: a single execution attempt that exceeds `task.timeout` is terminal —
`process_task` records the timeout description in `task.error`, stamps
`completed_at`, raises the timeout-specific failure to the caller, and makes
no further attempt, no backoff sleep, and no change to `retry_count`,
regardless of how much retry budget remains. -/
theorem c2_timeout_not_retried (exec : Nat → BA.ExecOutcome) (attemptIdx : Nat)
    (s : BA.AgentState) (t : BA.AgentTask)
    (hcap : s.currentTaskIds.length < s.maxConcurrentTasks)
    (hto : exec attemptIdx = BA.ExecOutcome.timedOut) :
    (BA.processTask exec attemptIdx s t).res =
        BA.ProcResult.err (BA.TaskFailure.timeoutFail (BA.timeoutMsg t)) ∧
    (BA.processTask exec attemptIdx s t).attempts = 1 ∧
    (BA.processTask exec attemptIdx s t).waits = [] ∧
    (BA.processTask exec attemptIdx s t).task.error = some (BA.timeoutMsg t) ∧
    (BA.processTask exec attemptIdx s t).task.retryCount = t.retryCount ∧
    ((BA.processTask exec attemptIdx s t).task.completedAt).isSome = true ∧
    (BA.processTask exec attemptIdx s t).task.result = t.result := by
  rw [BA.processTask.eq_def]
  rw [if_neg (by omega)]
  simp [hto, BA.finishUp, BA.timeoutMsg]

/-- C2 witness: a timing-out attempt on the concrete idle code agent makes
exactly one attempt and sleeps for no backoff, despite 3 retries remaining. -/
theorem c2_witness :
    (BA.processTask (fun _ => BA.ExecOutcome.timedOut) 0 fxAgent fxTask).attempts = 1 ∧
    (BA.processTask (fun _ => BA.ExecOutcome.timedOut) 0 fxAgent fxTask).waits = [] ∧
    fxTask.maxRetries = 3 := by
  have h := c2_timeout_not_retried (fun _ => BA.ExecOutcome.timedOut) 0 fxAgent fxTask
    (by decide) rfl
  exact ⟨h.2.1, h.2.2.1, rfl⟩

/-
C1
-/

/-- C1 (code bug): with the default `max_concurrent_tasks = 1`, an
always-failing task with `max_retries = 3` is executed exactly ONCE, after
which the retry recursion re-enters the admission capacity check while the
task still occupies its own slot and aborts with the capacity `ValueError` —
not the claimed `max_retries + 1 = 4` attempts. The same task on an agent
with limit 2 does receive the claimed 4 attempts with backoff sleeps
2, 4, 8 (`2 ** retry_count` after each increment), confirming that the
re-admission check is the sole deviation. -/
theorem c1_retry_capacity_code_bug :
    (BA.processTask fxAlwaysFail 0 fxAgent fxTask).attempts = 1 ∧
    (BA.processTask fxAlwaysFail 0 fxAgent fxTask).res =
      BA.ProcResult.err BA.TaskFailure.capacityFail ∧
    fxAgent.maxConcurrentTasks = 1 ∧ fxTask.maxRetries = 3 ∧
    (BA.processTask fxAlwaysFail 0 fxAgent2 fxTask).attempts = fxTask.maxRetries + 1 ∧
    (BA.processTask fxAlwaysFail 0 fxAgent2 fxTask).waits = [2, 4, 8] := by
  refine ⟨?_, ?_, rfl, rfl, ?_, ?_⟩ <;>
    simp [BA.processTask, fxAlwaysFail, fxAgent, fxAgent2, fxTask,
      BA.finishUp, BA.dictInsertKey, BA.addToHistory, BA.execMsg]

/-
C3
-/

/-- C3 counterexample: on an agent with concurrency limit 2, a task with
`max_retries = 1` whose executor raises on the first attempt and succeeds on
the retry ends with `result = 42` AND `error` still holding the first
attempt's failure message — `result` and `error` are not mutually exclusive,
because the success path never clears the error recorded by the earlier
failed attempt. -/
theorem c3_counterexample :
    (BA.processTask fxFailThenOk 0 fxAgent2 fxTaskR1).res = BA.ProcResult.ok 42 ∧
    (BA.processTask fxFailThenOk 0 fxAgent2 fxTaskR1).task.result = some 42 ∧
    (BA.processTask fxFailThenOk 0 fxAgent2 fxTaskR1).task.error =
      some ("Task t1 failed: e1") := by
  refine ⟨?_, ?_, ?_⟩ <;>
    simp [BA.processTask, fxFailThenOk, fxAgent, fxAgent2, fxTask, fxTaskR1,
      BA.finishUp, BA.dictInsertKey, BA.addToHistory, BA.execMsg]

/-- C3 amended: each terminal attempt of `process_task` writes exactly the
field matching its outcome — a successful terminal attempt stores the
returned payload in `result`, and a run none of whose attempts succeeds
leaves `result` untouched while recording a failure description in `error`
(once the task was admitted). However, an `error` written by an earlier
failed attempt is never cleared, so after fail-retry-succeed both fields are
set (see the counterexample). -/
theorem c3_result_error_amended (exec : Nat → BA.ExecOutcome) (attemptIdx : Nat)
    (s : BA.AgentState) (t : BA.AgentTask) :
    (∀ v, (BA.processTask exec attemptIdx s t).res = BA.ProcResult.ok v →
      (BA.processTask exec attemptIdx s t).task.result = some v) ∧
    ((∀ n v, exec n ≠ BA.ExecOutcome.success v) →
      (BA.processTask exec attemptIdx s t).task.result = t.result ∧
      (s.currentTaskIds.length < s.maxConcurrentTasks →
        ((BA.processTask exec attemptIdx s t).task.error).isSome = true)) := by
  refine ⟨?_, ?_⟩
  · intro v hok
    exact processTask_ok_result_fuel exec (t.maxRetries - t.retryCount)
      attemptIdx s t v le_rfl hok
  · intro hns
    refine ⟨processTask_result_preserved_fuel exec hns (t.maxRetries - t.retryCount)
      attemptIdx s t le_rfl, ?_⟩
    intro hadm
    rw [BA.processTask.eq_def]
    rw [if_neg (by omega)]
    rcases hx : exec attemptIdx with v | _ | m
    · exact absurd hx (hns _ _)
    · simp [BA.finishUp]
    · simp only []
      by_cases hr : t.retryCount < t.maxRetries
      · rw [dif_pos hr]
        simp only [BA.finishUp]
        apply processTask_error_mono_fuel exec _ _ _ _ le_rfl
        simp
      · rw [dif_neg hr]
        simp [BA.finishUp]

/-- C3 amended witness: an admitted always-failing task on the limit-2 agent
ends with `result` unset and `error` set. -/
theorem c3_amended_witness :
    (BA.processTask fxAlwaysFail 0 fxAgent2 fxTask).task.result = none ∧
    ((BA.processTask fxAlwaysFail 0 fxAgent2 fxTask).task.error).isSome = true := by
  have h := (c3_result_error_amended fxAlwaysFail 0 fxAgent2 fxTask).2
    (by intro n v hcontra; simp [fxAlwaysFail] at hcontra)
  exact ⟨h.1, h.2 (by decide)⟩

/-
Orchestrator fixtures and helper lemmas.
-/

def fxSvcTask : Svc.SvcTask := { id := "task_1", type := "code_generation" }

def fxSvcA1 : Svc.SvcAgent :=
  { agentId := "code_agent", status := Svc.SvcStatus.idle,
    capabilities := [{ name := "code_generation", complexityScore := 7 }],
    avgExecTime := 1 }

def fxSvcA2 : Svc.SvcAgent :=
  { agentId := "text_agent", status := Svc.SvcStatus.idle,
    capabilities := [{ name := "code_generation", complexityScore := 7 }],
    avgExecTime := 2 }

def fxResults : Svc.ResultsMap := Svc.resultsInsert ("task_a") 7 (fun _ => none)

/-- Python `min` keeps the first element among those with the minimal key, so
`pickBest` always returns its seed or a list member. -/
theorem pickBest_mem (best : Svc.SvcAgent) (l : List Svc.SvcAgent) :
    Svc.pickBest best l = best ∨ Svc.pickBest best l ∈ l := by
  induction l generalizing best with
  | nil => exact Or.inl rfl
  | cons a rest ih =>
    unfold Svc.pickBest
    by_cases hc : a.avgExecTime < best.avgExecTime
    · rw [if_pos hc]
      rcases ih a with h | h
      · exact Or.inr (by rw [h]; exact List.mem_cons_self a rest)
      · exact Or.inr (List.mem_cons_of_mem a h)
    · rw [if_neg hc]
      rcases ih best with h | h
      · exact Or.inl h
      · exact Or.inr (List.mem_cons_of_mem a h)

/-- The agent `pickBest` returns has the minimal average execution time among
the seed and the list. -/
theorem pickBest_le (best : Svc.SvcAgent) (l : List Svc.SvcAgent) :
    ∀ x, (x = best ∨ x ∈ l) →
      (Svc.pickBest best l).avgExecTime ≤ x.avgExecTime := by
  induction l generalizing best with
  | nil =>
    rintro x (rfl | hx)
    · exact le_refl _
    · exact absurd hx (List.not_mem_nil x)
  | cons a rest ih =>
    have hb2 : (if a.avgExecTime < best.avgExecTime then a else best).avgExecTime ≤
        best.avgExecTime := by
      by_cases hc : a.avgExecTime < best.avgExecTime
      · rw [if_pos hc]; exact le_of_lt hc
      · rw [if_neg hc]
    have ha2 : (if a.avgExecTime < best.avgExecTime then a else best).avgExecTime ≤
        a.avgExecTime := by
      by_cases hc : a.avgExecTime < best.avgExecTime
      · rw [if_pos hc]
      · rw [if_neg hc]; exact le_of_not_lt hc
    rintro x (rfl | hx)
    · unfold Svc.pickBest
      exact le_trans (ih _ _ (Or.inl rfl)) hb2
    · unfold Svc.pickBest
      rcases List.mem_cons.mp hx with rfl | hx2
      · exact le_trans (ih _ _ (Or.inl rfl)) ha2
      · exact ih _ _ (Or.inr hx2)

/-- With no concurrent writers, polling for an absent id always ends in the
raised timeout. -/
theorem getTaskResult_timeout_absent (taskId : String) :
    ∀ fuel tick m, m taskId = none →
      Svc.getTaskResult taskId fuel tick m Svc.noWrites = Svc.PollOutcome.timedOutPoll := by
  intro fuel
  induction fuel with
  | zero => intro tick m hm; rfl
  | succ fuel ih =>
    intro tick m hm
    unfold Svc.getTaskResult
    simp only [Svc.noWrites, Svc.applyWrites, List.foldl]
    rw [hm]
    exact ih (tick + 1) m hm

/-- Whenever `get_task_result` delivers, the map it leaves behind no longer
contains the task id (the entry was deleted before returning). -/
theorem getTaskResult_delivered_shape (taskId : String) :
    ∀ fuel tick m w v rest,
      Svc.getTaskResult taskId fuel tick m w = Svc.PollOutcome.delivered v rest →
      rest taskId = none := by
  intro fuel
  induction fuel with
  | zero =>
    intro tick m w v rest h
    exact Svc.PollOutcome.noConfusion h
  | succ fuel ih =>
    intro tick m w v rest h
    unfold Svc.getTaskResult at h
    rcases hm : (Svc.applyWrites (w tick) m) taskId with _ | u
    · rw [hm] at h
      exact ih _ _ _ _ _ h
    · rw [hm] at h
      injection h with h1 h2
      rw [← h2]
      simp [Svc.resultsErase]

/-
C6
-/

/-- C6: `_find_suitable_agent` returns no agent exactly when no registered
agent is both Idle and passes `can_handle_task`; otherwise it returns an
eligible agent whose cumulative average execution time is minimal among all
eligible agents (Python `min` keeps the first minimal element of the
registry's iteration order, so ties break deterministically). -/
theorem c6_find_suitable_agent (agents : List Svc.SvcAgent) (t : Svc.SvcTask) :
    (Svc.findSuitableAgent agents t = none ↔
      ∀ a ∈ agents, ¬(a.status = Svc.SvcStatus.idle ∧ Svc.svcCanHandleTask a t = true)) ∧
    (∀ a, Svc.findSuitableAgent agents t = some a →
      a ∈ agents ∧ a.status = Svc.SvcStatus.idle ∧ Svc.svcCanHandleTask a t = true ∧
      ∀ b ∈ agents, b.status = Svc.SvcStatus.idle → Svc.svcCanHandleTask b t = true →
        a.avgExecTime ≤ b.avgExecTime) := by
  constructor
  · unfold Svc.findSuitableAgent
    cases hf : agents.filter (fun a => a.status = Svc.SvcStatus.idle ∧ Svc.svcCanHandleTask a t) with
    | nil =>
      simp only [true_iff]
      have := List.filter_eq_nil_iff.mp hf
      intro a ha hcond
      exact absurd (decide_eq_true_eq.mpr hcond) (by simpa using this a ha)
    | cons b rest =>
      simp only [reduceCtorEq, false_iff]
      intro hall
      have hb : b ∈ agents.filter (fun a => a.status = Svc.SvcStatus.idle ∧ Svc.svcCanHandleTask a t) := by
        rw [hf]; exact List.mem_cons_self b rest
      have := List.mem_filter.mp hb
      exact hall b this.1 (decide_eq_true_eq.mp this.2)
  · intro a ha
    unfold Svc.findSuitableAgent at ha
    rcases hf : agents.filter (fun a => a.status = Svc.SvcStatus.idle ∧ Svc.svcCanHandleTask a t) with _ | ⟨b, rest⟩
    · rw [hf] at ha
      exact Option.noConfusion ha
    · rw [hf] at ha
      injection ha with ha
      have hmem : a ∈ agents.filter (fun a => a.status = Svc.SvcStatus.idle ∧ Svc.svcCanHandleTask a t) := by
        rw [hf]
        rcases pickBest_mem b rest with h | h
        · rw [← ha, h]
          exact List.mem_cons_self b rest
        · rw [← ha]
          exact List.mem_cons_of_mem b h
      have hma := List.mem_filter.mp hmem
      have hcond := decide_eq_true_eq.mp hma.2
      refine ⟨hma.1, hcond.1, hcond.2, ?_⟩
      intro b2 hb2 hidle hcan
      have hb2f : b2 ∈ agents.filter (fun a => a.status = Svc.SvcStatus.idle ∧ Svc.svcCanHandleTask a t) :=
        List.mem_filter.mpr ⟨hb2, decide_eq_true_eq.mpr ⟨hidle, hcan⟩⟩
      rw [hf] at hb2f
      rw [← ha]
      exact pickBest_le b rest b2 (by
        rcases List.mem_cons.mp hb2f with h | h
        · exact Or.inl h
        · exact Or.inr h)

/-- C6 witness: with two idle capable agents of average times 2 and 1
(registry order text-then-code), the code agent (time 1) is selected and its
time is minimal. -/
theorem c6_witness :
    fxSvcA1 ∈ [fxSvcA2, fxSvcA1] ∧ fxSvcA1.avgExecTime ≤ fxSvcA2.avgExecTime := by
  have h := (c6_find_suitable_agent [fxSvcA2, fxSvcA1] fxSvcTask).2 fxSvcA1 (by rfl)
  exact ⟨h.1, h.2.2.2 fxSvcA2 (List.mem_cons_self _ _) rfl (by rfl)⟩

/-
C7
-/

/-- C7: `get_task_result` polls `task_results` until the id appears or the
timeout budget is exhausted, raising the timeout failure in the latter case
(first conjunct, for an id never stored); when the id is present the stored
value is returned and the entry deleted (second conjunct); and any delivery
leaves a map without the id, so a second call for the same id (with no new
submission writing it) necessarily times out — a stored result is delivered
exactly once (third conjunct). -/
theorem c7_get_task_result (taskId : String) :
    (∀ fuel tick m, m taskId = none →
      Svc.getTaskResult taskId fuel tick m Svc.noWrites = Svc.PollOutcome.timedOutPoll) ∧
    (∀ fuel tick m w v, Svc.applyWrites (w tick) m taskId = some v →
      Svc.getTaskResult taskId (fuel + 1) tick m w =
        Svc.PollOutcome.delivered v (Svc.resultsErase taskId (Svc.applyWrites (w tick) m))) ∧
    (∀ fuel tick m w v rest,
      Svc.getTaskResult taskId fuel tick m w = Svc.PollOutcome.delivered v rest →
      rest taskId = none ∧
      ∀ fuel2 tick2, Svc.getTaskResult taskId fuel2 tick2 rest Svc.noWrites =
        Svc.PollOutcome.timedOutPoll) := by
  refine ⟨getTaskResult_timeout_absent taskId, ?_, ?_⟩
  · intro fuel tick m w v hm
    unfold Svc.getTaskResult
    rw [hm]
  · intro fuel tick m w v rest h
    have hnone := getTaskResult_delivered_shape taskId fuel tick m w v rest h
    exact ⟨hnone, fun fuel2 tick2 => getTaskResult_timeout_absent taskId fuel2 tick2 rest hnone⟩

/-- C7 witness: a stored result for `task_a` is delivered once with the entry
removed, and a second call on the resulting map times out. -/
theorem c7_witness :
    Svc.getTaskResult ("task_a") 3 0 fxResults Svc.noWrites =
      Svc.PollOutcome.delivered 7 (Svc.resultsErase ("task_a") fxResults) ∧
    Svc.getTaskResult ("task_a") 5 0 (Svc.resultsErase ("task_a") fxResults) Svc.noWrites =
      Svc.PollOutcome.timedOutPoll := by
  have h := c7_get_task_result ("task_a")
  have h1 := h.2.1 2 0 fxResults Svc.noWrites 7 (by rfl)
  refine ⟨h1, ?_⟩
  exact (h.2.2 3 0 fxResults Svc.noWrites 7 (Svc.resultsErase ("task_a") fxResults) h1).2 5 0

/-
C9
-/

/-- C9 (code bug): `submit_task` builds the task id from the millisecond
timestamp and `hash(str(input_data)) % 10000` alone, so two distinct
submissions in the same millisecond whose input hashes agree modulo 10000
(here hashes 1234 and 11234) receive the IDENTICAL id
`task_1700000000000_1234` — the generated ids are not unique, contradicting
the claim. (The `base_agent.py` task ids use `uuid.uuid4`, whose uniqueness
is only probabilistic and is not modelled here.) -/
theorem c9_id_collision_code_bug :
    Svc.submitTaskId 1700000000000 1234 = Svc.submitTaskId 1700000000000 11234 ∧
    Svc.submitTaskId 1700000000000 1234 = "task_1700000000000_1234" := by
  constructor <;> rfl
